import Mathlib

/-!
Shallow embedding of the DHT11 single-wire driver (src/dht11.rs) and proofs
about it.

Modelling conventions:
- The sensor side of the shared line is an oracle `env : Nat → Bool` giving the
  level the host samples at microsecond `t` after the transaction starts
  (`true` = high, `false` = low).  Reads of the pin are instantaneous; every
  `block_for(1 us)` and every `Timer::after_micros(n)` advances the clock.
- Machine integers (`u8`) are `Nat` values; the wrapping additions of the
  checksum are taken modulo 256 explicitly.
- Fallible Rust functions returning `Result<T, Dht11Error>` become
  `Except Dht11Error T`.  Besides the result, each embedded function also
  returns the clock value when it returns, and the bounded wait additionally
  returns how many times it sampled the pin; these instrumentation components
  do not influence the computation itself.
- The `DHT11_PIN` global cell is an `Option PinState` argument; the
  `unwrap()` of an empty cell (a Rust panic) is modelled as the `none` result
  of `read_dht11`.
-/

set_option maxRecDepth 10000

/-- Decidable equality for `Except`, so that concrete runs of the embedded
driver can be checked by evaluation. -/
instance {e a : Type} [DecidableEq e] [DecidableEq a] : DecidableEq (Except e a) :=
  fun x y =>
  match x, y with
  | .ok v, .ok w =>
    if h : v = w then .isTrue (congrArg Except.ok h)
    else .isFalse (fun hh => h (Except.ok.inj hh))
  | .error v, .error w =>
    if h : v = w then .isTrue (congrArg Except.error h)
    else .isFalse (fun hh => h (Except.error.inj hh))
  | .ok _, .error _ => .isFalse (fun hh => Except.noConfusion hh)
  | .error _, .ok _ => .isFalse (fun hh => Except.noConfusion hh)

/-- Error type of the driver (enum `Dht11Error` in src/dht11.rs). -/
inductive Dht11Error where
  | ChecksumMismatch
  | NoResponse
  | Timeout
deriving DecidableEq, Repr

/-- Sensor reading (struct `Dht11Data` in src/dht11.rs): four `u8` fields,
kept as `Nat` values (they are below 256 by construction). -/
structure Dht11Data where
  humidity_integral : Nat
  humidity_decimal : Nat
  temperature_integral : Nat
  temperature_decimal : Nat
deriving DecidableEq, Repr

/-- Derived humidity accessor `Dht11Data::humidity`.  The source computes
`humidity_integral as f32 + humidity_decimal as f32 / 10.0`; it is modelled
over the rationals, which agrees with `f32` whenever the division is exact
(in particular when the decimal part is 0, as in scenario A). -/
def humidity (d : Dht11Data) : ℚ :=
  (d.humidity_integral : ℚ) + (d.humidity_decimal : ℚ) / 10

/-- Derived temperature accessor `Dht11Data::temperature`, modelled like
`humidity`. -/
def temperature (d : Dht11Data) : ℚ :=
  (d.temperature_integral : ℚ) + (d.temperature_decimal : ℚ) / 10

/-- State of the `Flex` GPIO pin, tracking exactly the attributes the driver
sets: output enable, input enable, the driven output latch level
(`true` = high), and the output configuration applied by
`apply_output_config` (pull-up, 40 mA drive strength). -/
structure PinState where
  outputEnable : Bool
  inputEnable : Bool
  driven : Bool
  pullUp : Bool
  drive40 : Bool
deriving DecidableEq, Repr

/-- A pin as produced by `Flex::new`, before the driver configures it. -/
def initPin : PinState :=
  { outputEnable := false, inputEnable := false, driven := false,
    pullUp := false, drive40 := false }

/-- Loop of `wait_for_level_with_retry`.  The Rust loop is
`while pin.is_high() && retries < max_retries { retries += 1; block_for(1us) }`
(for target low; symmetric for target high), i.e. each evaluation of the loop
condition samples the pin once, and because `&&` evaluates its left operand
first the pin is sampled once more on the final, failing check.
`fuel` is `max_retries - retries`; the result is the final `retries` value,
the final clock, and the number of pin samples taken. -/
def wait_aux (env : Nat → Bool) (target : Bool) : Nat → Nat → Nat → Nat × Nat × Nat
  | 0, retries, t => (retries, t, 1)
  | fuel + 1, retries, t =>
    if env t == target then (retries, t, 1)
    else
      let r := wait_aux env target fuel (retries + 1) (t + 1)
      (r.1, r.2.1, r.2.2 + 1)

/-- Embedding of `wait_for_level_with_retry` (src/dht11.rs): poll the pin for
`target`, delaying 1 us between polls, and fail with `Timeout` when
`retries >= max_retries` at loop exit.  Returns the result, the final clock
value and the number of pin samples taken. -/
def wait_for_level_with_retry (env : Nat → Bool) (target : Bool)
    (maxRetries t : Nat) : Except Dht11Error Unit × Nat × Nat :=
  let r := wait_aux env target maxRetries 0 t
  (if maxRetries ≤ r.1 then .error .Timeout else .ok (), r.2.1, r.2.2)

/-- Body of one iteration of the `for i in 0..8` loop of `read_byte`: wait for
low, wait for high, block for 40 us, then sample the pin; a high sample
classifies the bit as 1 (`true`). -/
def read_bit (env : Nat → Bool) (t : Nat) : Except Dht11Error Bool × Nat :=
  match wait_for_level_with_retry env false 100 t with
  | (.error e, t1, _) => (.error e, t1)
  | (.ok _, t1, _) =>
    match wait_for_level_with_retry env true 100 t1 with
    | (.error e, t2, _) => (.error e, t2)
    | (.ok _, t2, _) => (.ok (env (t2 + 40)), t2 + 40)

/-- Accumulator loop of `read_byte`: at loop index `i` the Rust code does
`data |= 1 << (7 - i)` when the sampled bit is 1.  Here `k = 7 - i` counts
the remaining iterations, so the first iteration shifts by 7 and the last
by 0, exactly as in the source. -/
def read_byte_aux (env : Nat → Bool) : Nat → Nat → Nat → Except Dht11Error Nat × Nat
  | 0, data, t => (.ok data, t)
  | k + 1, data, t =>
    match read_bit env t with
    | (.error e, t1) => (.error e, t1)
    | (.ok b, t1) => read_byte_aux env k (if b then data ||| (1 <<< k) else data) t1

/-- Embedding of `read_byte` (src/dht11.rs): eight bit reads assembled
MSB-first into one accumulator starting from `0u8`. -/
def read_byte (env : Nat → Bool) (t : Nat) : Except Dht11Error Nat × Nat :=
  read_byte_aux env 8 0 t

/-- The `for byte in &mut data` loop of `read_dht11`: read `n` bytes in
sequence, aborting on the first error. -/
def read_bytes (env : Nat → Bool) : Nat → Nat → Except Dht11Error (List Nat) × Nat
  | 0, t => (.ok [], t)
  | n + 1, t =>
    match read_byte env t with
    | (.error e, t1) => (.error e, t1)
    | (.ok b, t1) =>
      match read_bytes env n t1 with
      | (.error e, t2) => (.error e, t2)
      | (.ok bs, t2) => (.ok (b :: bs), t2)

/-- The checksum computation of `read_dht11`:
`data[0].wrapping_add(data[1]).wrapping_add(data[2]).wrapping_add(data[3])`
on `u8`, i.e. each addition is taken modulo 256. -/
def checksum4 (b0 b1 b2 b3 : Nat) : Nat :=
  (((b0 + b1) % 256 + b2) % 256 + b3) % 256

/-- Embedding of the body of `read_dht11` (src/dht11.rs), given that the pin
cell was initialized.  It follows the source line by line: configure the pin
as driven output, hold the line low for 20 ms, release it high for 15 us,
enable input, perform the two acknowledgment waits, read 5 bytes, wait for
the line to return low, then validate the checksum.  Returns the result, the
pin state at return, and the clock value at return (microseconds since the
transaction started). -/
def read_dht11_body (env : Nat → Bool) (p0 : PinState) :
    Except Dht11Error Dht11Data × PinState × Nat :=
  -- flex_pin.set_high()
  let p := { p0 with driven := true }
  -- flex_pin.apply_output_config(pull-up, 40 mA)
  let p := { p with pullUp := true, drive40 := true }
  -- flex_pin.set_output_enable(true)
  let p := { p with outputEnable := true }
  -- flex_pin.set_low(); Timer::after_micros(20000)
  let p := { p with driven := false }
  -- flex_pin.set_high(); Timer::after_micros(15); clock is now 20000 + 15
  let p := { p with driven := true }
  let t : Nat := 20015
  -- flex_pin.set_input_enable(true)
  let p := { p with inputEnable := true }
  match wait_for_level_with_retry env false 100 t with
  | (.error e, t1, _) => (.error e, p, t1)
  | (.ok _, t1, _) =>
    match wait_for_level_with_retry env true 100 t1 with
    | (.error e, t2, _) => (.error e, p, t2)
    | (.ok _, t2, _) =>
      match read_bytes env 5 t2 with
      | (.error e, t3) => (.error e, p, t3)
      | (.ok data, t3) =>
        match wait_for_level_with_retry env false 100 t3 with
        | (.error e, t4, _) => (.error e, p, t4)
        | (.ok _, t4, _) =>
          let checksum := checksum4 (data.getD 0 0) (data.getD 1 0)
              (data.getD 2 0) (data.getD 3 0)
          if checksum ≠ data.getD 4 0 then (.error .ChecksumMismatch, p, t4)
          else (.ok { humidity_integral := data.getD 0 0,
                      humidity_decimal := data.getD 1 0,
                      temperature_integral := data.getD 2 0,
                      temperature_decimal := data.getD 3 0 }, p, t4)

/-- Embedding of `dht11_init` (src/dht11.rs): store a freshly created `Flex`
pin in the global cell, replacing its previous content. -/
def dht11_init (cell : Option PinState) : Option PinState :=
  let _ := cell
  some initPin

/-- Embedding of `read_dht11` including the access to the global `DHT11_PIN`
cell: `guard.as_mut().unwrap()` panics when the cell is empty, which is
modelled as the `none` result; otherwise the transaction body runs. -/
def read_dht11 (cell : Option PinState) (env : Nat → Bool) :
    Option (Except Dht11Error Dht11Data × PinState × Nat) :=
  match cell with
  | none => none
  | some p => some (read_dht11_body env p)

/-- Whether some bounded wait inside the transaction of `read_dht11` fails:
either acknowledgment wait, any wait inside the 40 bit reads, or the
frame-end wait.  The stages are evaluated at exactly the clock values the
transaction itself produces. -/
def anyWaitFailed (env : Nat → Bool) : Bool :=
  match wait_for_level_with_retry env false 100 20015 with
  | (.error _, _, _) => true
  | (.ok _, t1, _) =>
    match wait_for_level_with_retry env true 100 t1 with
    | (.error _, _, _) => true
    | (.ok _, t2, _) =>
      match read_bytes env 5 t2 with
      | (.error _, _) => true
      | (.ok _, t3) =>
        match wait_for_level_with_retry env false 100 t3 with
        | (.error _, _, _) => true
        | (.ok _, _, _) => false

/-- Timeline of `dht11_task` (src/dht11.rs): iteration `n` of the loop calls
`read`, which takes the time recorded in the third component of
`read_dht11_body`, and then suspends for `Timer::after_secs(2)`, i.e.
2 000 000 us.  `dht11_task_start envs p0 n` is the clock value (in
microseconds) at which the `n`-th `read()` call starts, where `envs n` is the
line behaviour the sensor exhibits during iteration `n`. -/
def dht11_task_start (envs : Nat → Nat → Bool) (p0 : PinState) : Nat → Nat
  | 0 => 0
  | n + 1 =>
    dht11_task_start envs p0 n + (read_dht11_body (envs n) p0).2.2 + 2000000

/-- The sequence of bit values produced by running the body of the
`read_byte` loop (one `read_bit`) `n` times in sequence. -/
def read_bits (env : Nat → Bool) : Nat → Nat → Except Dht11Error (List Bool) × Nat
  | 0, t => (.ok [], t)
  | n + 1, t =>
    match read_bit env t with
    | (.error e, t1) => (.error e, t1)
    | (.ok b, t1) =>
      match read_bits env n t1 with
      | (.error e, t2) => (.error e, t2)
      | (.ok bs, t2) => (.ok (b :: bs), t2)

/-- MSB-first value of a list of bits: the head is the most significant bit. -/
def msbVal : List Bool → Nat
  | [] => 0
  | b :: bs => (if b then 2 ^ bs.length else 0) + msbVal bs

/-- Whether the claim that the pin was restored to exclusive output mode,
driven idle-high, holds of a pin state: output enabled and latched high with
input sampling switched off again. -/
def outputIdleHigh (p : PinState) : Bool :=
  p.outputEnable && !p.inputEnable && p.driven

/-- Bit `k` of the 40-bit stream encoding `bytes`, MSB-first within each
byte: bit `k` belongs to byte `k / 8` and is that byte at position
`7 - k % 8`. -/
def streamBit (bytes : List Nat) (k : Nat) : Bool :=
  Nat.testBit (bytes.getD (k / 8) 0) (7 - k % 8)

/-- A line behaviour under which a whole transaction succeeds and transmits
`bytes`.  The acknowledgment is low on [20015, 20025) and high on
[20025, 20035); bit `k` occupies the window [20035 + 100 k, 20135 + 100 k):
low for 10 us, high for 40 us, then at the level encoding the bit value; the
line rests low after the last window. -/
def mkEnv (bytes : List Nat) (t : Nat) : Bool :=
  if t < 20025 then false
  else if t < 20035 then true
  else if t < 24035 then
    let u := t - 20035
    let d := u % 100
    if d < 10 then false
    else if d < 50 then true
    else streamBit bytes (u / 100)
  else false

/-- Like `mkEnv`, but the line stays high forever once the last data bit has
been sampled, so the frame-end wait for low times out after a complete,
checksum-valid frame was captured. -/
def mkEnvHang (bytes : List Nat) (t : Nat) : Bool :=
  if t < 23990 then mkEnv bytes t else true

/-- A line behaviour for exercising `read_byte` alone from clock 0: bit `k`
occupies the window [100 k, 100 k + 100) with the same 10/40/50 shape as
`mkEnv`. -/
def bitCellEnv (bits : List Bool) (t : Nat) : Bool :=
  if t < 800 then
    let d := t % 100
    if d < 10 then false
    else if d < 50 then true
    else bits.getD (t / 100) false
  else false

/-! ## Helper lemmas about the bounded wait -/

/-- If the line never shows the target level, the wait loop runs its fuel to
exhaustion: the retry counter grows by `fuel`, the clock advances by `fuel`
microseconds (one per delay cycle), and the pin is sampled `fuel + 1` times
(the final, failing loop-condition check samples the pin once more). -/
theorem wait_aux_never (env : Nat → Bool) (target : Bool)
    (h : ∀ s, env s ≠ target) :
    ∀ fuel r t, wait_aux env target fuel r t = (r + fuel, t + fuel, fuel + 1) := by
  intro fuel
  induction fuel with
  | zero => intro r t; simp [wait_aux]
  | succ f ih =>
    intro r t
    have hb : (env t == target) = false := beq_eq_false_iff_ne.mpr (h t)
    simp [wait_aux, hb, ih (r + 1) (t + 1), Prod.ext_iff]
    omega

/-- A failing bounded wait always reports `Timeout`. -/
theorem wait_error_eq {env : Nat → Bool} {target : Bool} {m t : Nat}
    {e : Dht11Error} {u n : Nat}
    (h : wait_for_level_with_retry env target m t = (.error e, u, n)) :
    e = Dht11Error.Timeout := by
  simp only [wait_for_level_with_retry] at h
  split at h <;> simp_all

/-! ## Claims C3 and C6: behaviour of the bounded wait -/

/-- C3 (amended): if the pin never reaches the target level, the wait returns
`Timeout` after exactly `max_retries + 1` polls of the pin and `max_retries`
one-microsecond delay cycles, for every target level and every
`max_retries`; in particular it never loops indefinitely. -/
theorem C3_never_target_timeout (env : Nat → Bool) (target : Bool) (m t : Nat)
    (h : ∀ s, env s ≠ target) :
    wait_for_level_with_retry env target m t =
      (.error Dht11Error.Timeout, t + m, m + 1) := by
  simp [wait_for_level_with_retry, wait_aux_never env target h m 0 t]

/-- C3 counterexample: with a line that never goes high, a wait for high with
`max_retries = 2` polls the pin 3 times, not 2: the claimed count
`max_retries` is wrong (the loop condition samples the pin once more on its
final, failing check). -/
theorem C3_counterexample :
    (∀ s : Nat, (fun _ => false : Nat → Bool) s ≠ true) ∧
    wait_for_level_with_retry (fun _ => false) true 2 0 =
      (.error Dht11Error.Timeout, 2, 3) ∧
    (3 : Nat) ≠ 2 :=
  ⟨fun _ => by simp, by decide, by decide⟩

/-- C3 witness: the amended count at a concrete input: `max_retries = 5`,
start clock 7, line constantly low while waiting for high. -/
theorem C3_witness :
    wait_for_level_with_retry (fun _ => false) true 5 7 =
      (.error Dht11Error.Timeout, 7 + 5, 5 + 1) :=
  C3_never_target_timeout (fun _ => false) true 5 7 (fun _ => by simp)

/-- C6 (amended): if the pin is already at the target level when the wait
begins and `max_retries >= 1`, the wait succeeds immediately: one poll, no
delay cycle consumed.  (For `max_retries = 0` the wait always fails, see the
counterexample.) -/
theorem C6_immediate_success (env : Nat → Bool) (target : Bool) (m t : Nat)
    (henv : env t = target) (hm : 1 ≤ m) :
    wait_for_level_with_retry env target m t = (.ok (), t, 1) := by
  obtain ⟨k, rfl⟩ : ∃ k, m = k + 1 := ⟨m - 1, by omega⟩
  have hb : (env t == target) = true := beq_iff_eq.mpr henv
  simp [wait_for_level_with_retry, wait_aux, hb]

/-- C6 counterexample: with `max_retries = 0` the wait returns `Timeout` even
though the pin is already at the target level when it begins, because the
final check `retries >= max_retries` holds with `retries = 0`.  This refutes
the claim for every `max_retries`. -/
theorem C6_counterexample :
    ((fun _ => true : Nat → Bool) 5 = true) ∧
    wait_for_level_with_retry (fun _ => true) true 0 5 =
      (.error Dht11Error.Timeout, 5, 1) := by
  refine ⟨rfl, by decide⟩

/-- C6 witness: a line already high when a wait for high with
`max_retries = 3` begins at clock 2 succeeds at once. -/
theorem C6_witness :
    wait_for_level_with_retry (fun _ => true) true 3 2 = (.ok (), 2, 1) :=
  C6_immediate_success (fun _ => true) true 3 2 rfl (by omega)

/-! ## Claim C2: bit order of read_byte -/

/-- Running the bit-read body `n` times yields exactly `n` bits on success. -/
theorem read_bits_length (env : Nat → Bool) :
    ∀ n t bs u, read_bits env n t = (.ok bs, u) → bs.length = n := by
  intro n
  induction n with
  | zero =>
    intro t bs u h
    simp only [read_bits, Prod.mk.injEq, Except.ok.injEq] at h
    rw [← h.1]
    rfl
  | succ k ih =>
    intro t bs u h
    rw [read_bits] at h
    rcases h1 : read_bit env t with ⟨r1, t1⟩
    cases r1 with
    | error e => simp only [h1] at h; simp at h
    | ok b =>
      simp only [h1] at h
      rcases h2 : read_bits env k t1 with ⟨r2, t2⟩
      cases r2 with
      | error e => simp only [h2] at h; simp at h
      | ok bs2 =>
        simp only [h2, Prod.mk.injEq, Except.ok.injEq] at h
        rw [← h.1, List.length_cons, ih t1 bs2 t2 h2]

/-- The accumulator loop of `read_byte` refines the list of sampled bits:
starting from an accumulator whose low `n` bits are clear, a successful run
adds the MSB-first value of the `n` sampled bits, and a failing run
propagates the first error unchanged. -/
theorem read_byte_aux_spec (env : Nat → Bool) :
    ∀ n data t, 2 ^ n ∣ data →
      read_byte_aux env n data t =
        (match read_bits env n t with
         | (.error e, u) => (.error e, u)
         | (.ok bs, u) => (.ok (data + msbVal bs), u)) := by
  intro n
  induction n with
  | zero => intro data t _; simp [read_byte_aux, read_bits, msbVal]
  | succ k ih =>
    intro data t hdvd
    have hd1 : (2 : Nat) ^ k ∣ data := dvd_trans (pow_dvd_pow 2 (Nat.le_succ k)) hdvd
    rw [read_byte_aux, read_bits]
    rcases h1 : read_bit env t with ⟨r1, t1⟩
    cases r1 with
    | error e => simp [h1]
    | ok b =>
      simp only [h1]
      have hacc : (if b then data ||| (1 <<< k) else data) =
          data + (if b then 2 ^ k else 0) := by
        cases b with
        | false => simp
        | true =>
          obtain ⟨m, rfl⟩ := hdvd
          simp only [if_true]
          rw [Nat.one_shiftLeft]
          exact (Nat.mul_add_lt_is_or
            (Nat.pow_lt_pow_right one_lt_two (Nat.lt_succ_self k)) m).symm
      have hdvd2 : 2 ^ k ∣ data + (if b then 2 ^ k else 0) := by
        cases b with
        | false => simpa using hd1
        | true => simpa using dvd_add hd1 dvd_rfl
      rw [hacc, ih _ t1 hdvd2]
      rcases h2 : read_bits env k t1 with ⟨r2, t2⟩
      cases r2 with
      | error e => simp [h2]
      | ok bs =>
        have hlen := read_bits_length env k t1 bs t2 h2
        simp [h2, msbVal, hlen, Nat.add_assoc]

/-- The MSB-first value of a bit list as a weighted sum: the bit at index `i`
weighs `2 ^ (length - 1 - i)`. -/
theorem msbVal_eq_sum : ∀ bs : List Bool,
    msbVal bs = ∑ i ∈ Finset.range bs.length,
      (if bs.getD i false then 2 ^ (bs.length - 1 - i) else 0) := by
  intro bs
  induction bs with
  | nil => simp [msbVal]
  | cons b bs ih =>
    have hsum : (∑ i ∈ Finset.range bs.length,
        (if bs.getD i false then 2 ^ (bs.length + 1 - 1 - (i + 1)) else 0)) =
        ∑ i ∈ Finset.range bs.length,
        (if bs.getD i false then 2 ^ (bs.length - 1 - i) else 0) := by
      apply Finset.sum_congr rfl
      intro i _
      have he : bs.length + 1 - 1 - (i + 1) = bs.length - 1 - i := by omega
      rw [he]
    rw [msbVal, ih, List.length_cons, Finset.sum_range_succ']
    simp only [List.getD_cons_succ, List.getD_cons_zero]
    rw [hsum]
    simp [Nat.add_comm]

/-- C2: `read_byte` executes the bit-read body exactly eight times and
assembles the byte MSB-first: when the eight bit reads succeed with bit list
`bs`, the byte is the sum of `2 ^ (7 - i)` over the loop indices `i` whose
bit is 1; an error in any bit read propagates unchanged; and each bit read
classifies the sample taken 40 us after the high phase begins, high as 1 and
low as 0 (the sampled level is `env` at that instant). -/
theorem C2_read_byte_msb_first (env : Nat → Bool) (t : Nat) :
    (∀ bs u, read_bits env 8 t = (.ok bs, u) →
      read_byte env t =
        (.ok (∑ i ∈ Finset.range 8, if bs.getD i false then 2 ^ (7 - i) else 0),
          u)) ∧
    (∀ e u, read_bits env 8 t = (.error e, u) → read_byte env t = (.error e, u)) ∧
    (∀ u0 t1 a t2 c,
      wait_for_level_with_retry env false 100 u0 = (.ok (), t1, a) →
      wait_for_level_with_retry env true 100 t1 = (.ok (), t2, c) →
      read_bit env u0 = (.ok (env (t2 + 40)), t2 + 40)) := by
  refine ⟨?_, ?_, ?_⟩
  · intro bs u h
    have hlen := read_bits_length env 8 t bs u h
    have hval := msbVal_eq_sum bs
    rw [hlen] at hval
    have hs : (∑ i ∈ Finset.range 8,
        (if bs.getD i false then 2 ^ (8 - 1 - i) else 0)) =
        ∑ i ∈ Finset.range 8, (if bs.getD i false then 2 ^ (7 - i) else 0) := by
      apply Finset.sum_congr rfl
      intro i _
      norm_num
    rw [read_byte, read_byte_aux_spec env 8 0 t (dvd_zero _), h]
    simp [hval, hs]
  · intro e u h
    rw [read_byte, read_byte_aux_spec env 8 0 t (dvd_zero _), h]
  · intro u0 t1 a t2 c h1 h2
    simp [read_bit, h1, h2]

/-- C2 witness: a concrete line behaviour transmitting the bits of 0xA5,
sampled at the concrete instants the model computes; `read_byte` returns the
MSB-first sum of those bits. -/
theorem C2_witness :
    read_bits (bitCellEnv [true, false, true, false, false, true, false, true]) 8 0 =
      (.ok [true, false, true, false, false, true, false, true], 750) ∧
    read_byte (bitCellEnv [true, false, true, false, false, true, false, true]) 0 =
      (.ok (∑ i ∈ Finset.range 8,
        if [true, false, true, false, false, true, false, true].getD i false
        then 2 ^ (7 - i) else 0), 750) :=
  ⟨by decide,
   (C2_read_byte_msb_first
      (bitCellEnv [true, false, true, false, false, true, false, true]) 0).1
      [true, false, true, false, false, true, false, true] 750 (by decide)⟩

/-! ## Error classification helpers -/

/-- A failing bit read only ever reports `Timeout` (its only failure sources
are the two bounded waits). -/
theorem read_bit_error_eq {env : Nat → Bool} {t : Nat} {e : Dht11Error} {u : Nat}
    (h : read_bit env t = (.error e, u)) : e = Dht11Error.Timeout := by
  rw [read_bit] at h
  rcases h1 : wait_for_level_with_retry env false 100 t with ⟨r1, t1, n1⟩
  cases r1 with
  | error e1 =>
    simp only [h1, Prod.mk.injEq, Except.error.injEq] at h
    exact h.1 ▸ wait_error_eq h1
  | ok _ =>
    simp only [h1] at h
    rcases h2 : wait_for_level_with_retry env true 100 t1 with ⟨r2, t2, n2⟩
    cases r2 with
    | error e2 =>
      simp only [h2, Prod.mk.injEq, Except.error.injEq] at h
      exact h.1 ▸ wait_error_eq h2
    | ok _ => simp only [h2] at h; simp at h

/-- A failing run of the byte-accumulator loop only ever reports `Timeout`. -/
theorem read_byte_aux_error_eq (env : Nat → Bool) :
    ∀ k data t e u, read_byte_aux env k data t = (.error e, u) →
      e = Dht11Error.Timeout := by
  intro k
  induction k with
  | zero => intro data t e u h; simp [read_byte_aux] at h
  | succ n ih =>
    intro data t e u h
    rw [read_byte_aux] at h
    rcases h1 : read_bit env t with ⟨r1, t1⟩
    cases r1 with
    | error e1 =>
      simp only [h1, Prod.mk.injEq, Except.error.injEq] at h
      exact h.1 ▸ read_bit_error_eq h1
    | ok b =>
      simp only [h1] at h
      exact ih _ t1 e u h

/-- A failing run of the 5-byte data phase only ever reports `Timeout`. -/
theorem read_bytes_error_eq (env : Nat → Bool) :
    ∀ n t e u, read_bytes env n t = (.error e, u) → e = Dht11Error.Timeout := by
  intro n
  induction n with
  | zero => intro t e u h; simp [read_bytes] at h
  | succ k ih =>
    intro t e u h
    rw [read_bytes] at h
    rcases h1 : read_byte env t with ⟨r1, t1⟩
    cases r1 with
    | error e1 =>
      simp only [h1, Prod.mk.injEq, Except.error.injEq] at h
      exact h.1 ▸ read_byte_aux_error_eq env 8 0 t e1 t1 h1
    | ok b =>
      simp only [h1] at h
      rcases h2 : read_bytes env k t1 with ⟨r2, t2⟩
      cases r2 with
      | error e2 =>
        simp only [h2, Prod.mk.injEq, Except.error.injEq] at h
        exact h.1 ▸ ih t1 e2 t2 h2
      | ok bs => simp only [h2] at h; simp at h

/-! ## Claims C4, C7, C5: error propagation, error taxonomy, pin state -/

/-- C4: the transaction returns `Timeout` exactly when one of its bounded
waits fails (either acknowledgment wait, any wait inside the 40 bit reads,
or the frame-end wait), and when a wait fails the caller never receives a
reading: the transaction is aborted where it stands. -/
theorem C4_wait_failure_aborts (env : Nat → Bool) (p0 : PinState) :
    ((read_dht11_body env p0).1 = .error Dht11Error.Timeout ↔
      anyWaitFailed env = true) ∧
    (anyWaitFailed env = true → ∀ d, (read_dht11_body env p0).1 ≠ .ok d) := by
  simp only [read_dht11_body, anyWaitFailed]
  rcases h1 : wait_for_level_with_retry env false 100 20015 with ⟨r1, t1, n1⟩
  cases r1 with
  | error e1 =>
    have he := wait_error_eq h1
    subst he
    simp [h1]
  | ok u1 =>
    simp only [h1]
    rcases h2 : wait_for_level_with_retry env true 100 t1 with ⟨r2, t2, n2⟩
    cases r2 with
    | error e2 =>
      have he := wait_error_eq h2
      subst he
      simp [h2]
    | ok u2 =>
      simp only [h2]
      rcases h3 : read_bytes env 5 t2 with ⟨r3, t3⟩
      cases r3 with
      | error e3 =>
        have he := read_bytes_error_eq env 5 t2 e3 t3 h3
        subst he
        simp [h3]
      | ok data =>
        simp only [h3]
        rcases h4 : wait_for_level_with_retry env false 100 t3 with ⟨r4, t4, n4⟩
        cases r4 with
        | error e4 =>
          have he := wait_error_eq h4
          subst he
          simp [h4]
        | ok u4 =>
          simp only [h4]
          split <;> simp

/-- C4 witness: a line that stays high forever makes the first
acknowledgment wait fail, and the transaction returns `Timeout` with no
reading. -/
theorem C4_witness :
    anyWaitFailed (fun _ => true) = true ∧
    (read_dht11_body (fun _ => true) initPin).1 = .error Dht11Error.Timeout ∧
    ∀ d, (read_dht11_body (fun _ => true) initPin).1 ≠ .ok d :=
  ⟨by decide,
   ((C4_wait_failure_aborts (fun _ => true) initPin).1).2 (by decide),
   (C4_wait_failure_aborts (fun _ => true) initPin).2 (by decide)⟩

/-- C7: the result of every transaction is a reading, `Timeout`, or
`ChecksumMismatch`; the `NoResponse` variant declared in `Dht11Error` is
never returned. -/
theorem C7_noresponse_never_raised (env : Nat → Bool) (p0 : PinState) :
    (read_dht11_body env p0).1 = .error Dht11Error.Timeout ∨
    (read_dht11_body env p0).1 = .error Dht11Error.ChecksumMismatch ∨
    ∃ d, (read_dht11_body env p0).1 = .ok d := by
  simp only [read_dht11_body]
  rcases h1 : wait_for_level_with_retry env false 100 20015 with ⟨r1, t1, n1⟩
  cases r1 with
  | error e1 =>
    have he := wait_error_eq h1
    subst he
    simp [h1]
  | ok u1 =>
    simp only [h1]
    rcases h2 : wait_for_level_with_retry env true 100 t1 with ⟨r2, t2, n2⟩
    cases r2 with
    | error e2 =>
      have he := wait_error_eq h2
      subst he
      simp [h2]
    | ok u2 =>
      simp only [h2]
      rcases h3 : read_bytes env 5 t2 with ⟨r3, t3⟩
      cases r3 with
      | error e3 =>
        have he := read_bytes_error_eq env 5 t2 e3 t3 h3
        subst he
        simp [h3]
      | ok data =>
        simp only [h3]
        rcases h4 : wait_for_level_with_retry env false 100 t3 with ⟨r4, t4, n4⟩
        cases r4 with
        | error e4 =>
          have he := wait_error_eq h4
          subst he
          simp [h4]
        | ok u4 =>
          simp only [h4]
          split
          · right; left; simp
          · right; right; exact ⟨_, rfl⟩

/-- C5 (amended): at every return from `read_dht11` the pin has output
enable set and the output latch driven high (left over from the line-release
step), with the pull-up configuration applied, but input enable is also
still set: the driver performs no restoration to an exclusive output mode
before returning, for any outcome; reconfiguration happens at the start of
the next transaction instead. -/
theorem C5_pin_state_at_return (env : Nat → Bool) (p0 : PinState) :
    (read_dht11_body env p0).2.1 =
      { outputEnable := true, inputEnable := true, driven := true,
        pullUp := true, drive40 := true } := by
  simp only [read_dht11_body]
  rcases h1 : wait_for_level_with_retry env false 100 20015 with ⟨r1, t1, n1⟩
  cases r1 with
  | error e1 => simp [h1]
  | ok u1 =>
    simp only [h1]
    rcases h2 : wait_for_level_with_retry env true 100 t1 with ⟨r2, t2, n2⟩
    cases r2 with
    | error e2 => simp [h2]
    | ok u2 =>
      simp only [h2]
      rcases h3 : read_bytes env 5 t2 with ⟨r3, t3⟩
      cases r3 with
      | error e3 => simp [h3]
      | ok data =>
        simp only [h3]
        rcases h4 : wait_for_level_with_retry env false 100 t3 with ⟨r4, t4, n4⟩
        cases r4 with
        | error e4 => simp [h4]
        | ok u4 =>
          simp only [h4]
          split <;> simp

/-- C5 counterexample: after a fully successful transaction (the scenario-A
line behaviour) the pin is not in the claimed exclusive output idle-high
state, because input enable is still set; no restoration step ran before
the return. -/
theorem C5_counterexample :
    outputIdleHigh
      (read_dht11_body (mkEnv [50, 0, 21, 0, 71]) initPin).2.1 = false ∧
    (read_dht11_body (mkEnv [50, 0, 21, 0, 71]) initPin).2.1.inputEnable = true := by
  refine ⟨by decide, by decide⟩

/-! ## Claims C1 and C9: frame validation and scenario A -/

/-- C1 (amended): for every 5-byte frame captured in the data phase of a
transaction whose acknowledgment waits succeeded, provided the subsequent
frame-end wait (line returning low) also succeeds, the transaction returns a
reading whose fields are exactly bytes 0 to 3 when the 8-bit wrapping sum of
bytes 0 to 3 equals byte 4, and fails with `ChecksumMismatch` when it does
not. -/
theorem C1_validate_frame (env : Nat → Bool) (p0 : PinState)
    (t1 n1 t2 n2 t3 t4 n4 b0 b1 b2 b3 b4 : Nat)
    (h1 : wait_for_level_with_retry env false 100 20015 = (.ok (), t1, n1))
    (h2 : wait_for_level_with_retry env true 100 t1 = (.ok (), t2, n2))
    (h3 : read_bytes env 5 t2 = (.ok [b0, b1, b2, b3, b4], t3))
    (h4 : wait_for_level_with_retry env false 100 t3 = (.ok (), t4, n4)) :
    (checksum4 b0 b1 b2 b3 = b4 →
      (read_dht11_body env p0).1 =
        .ok { humidity_integral := b0, humidity_decimal := b1,
              temperature_integral := b2, temperature_decimal := b3 }) ∧
    (checksum4 b0 b1 b2 b3 ≠ b4 →
      (read_dht11_body env p0).1 = .error Dht11Error.ChecksumMismatch) := by
  simp only [read_dht11_body, h1, h2, h3, h4]
  constructor
  · intro hc
    simp [hc]
  · intro hc
    simp [hc]

/-- C1 counterexample: under the hung-line behaviour the data phase of the
transaction captures the frame 50, 0, 21, 0, 71 (at the transaction's own
acknowledgment-completion clock 20025) and its checksum is valid, yet the
transaction returns `Timeout`, not a reading, because the frame-end wait
fails: the claim as stated ignores the frame-end wait. -/
theorem C1_counterexample :
    wait_for_level_with_retry (mkEnvHang [50, 0, 21, 0, 71]) false 100 20015 =
      (.ok (), 20015, 1) ∧
    wait_for_level_with_retry (mkEnvHang [50, 0, 21, 0, 71]) true 100 20015 =
      (.ok (), 20025, 11) ∧
    read_bytes (mkEnvHang [50, 0, 21, 0, 71]) 5 20025 =
      (.ok [50, 0, 21, 0, 71], 23985) ∧
    checksum4 50 0 21 0 = 71 ∧
    (read_dht11_body (mkEnvHang [50, 0, 21, 0, 71]) initPin).1 =
      .error Dht11Error.Timeout := by
  refine ⟨by decide, by decide, by decide, by decide, by decide⟩

/-- C1 witness: the amended claim at two concrete line behaviours: a valid
frame 1, 2, 3, 4, 10 decodes to the corresponding reading, and the off-by-one
frame 1, 2, 3, 4, 9 fails with `ChecksumMismatch`. -/
theorem C1_witness :
    (read_dht11_body (mkEnv [1, 2, 3, 4, 10]) initPin).1 =
      .ok { humidity_integral := 1, humidity_decimal := 2,
            temperature_integral := 3, temperature_decimal := 4 } ∧
    (read_dht11_body (mkEnv [1, 2, 3, 4, 9]) initPin).1 =
      .error Dht11Error.ChecksumMismatch :=
  ⟨(C1_validate_frame (mkEnv [1, 2, 3, 4, 10]) initPin
      20015 1 20025 11 23985 23985 1 1 2 3 4 10
      (by decide) (by decide) (by decide) (by decide)).1 (by decide),
   (C1_validate_frame (mkEnv [1, 2, 3, 4, 9]) initPin
      20015 1 20025 11 23985 24035 51 1 2 3 4 9
      (by decide) (by decide) (by decide) (by decide)).2 (by decide)⟩

/-- C9: under a line behaviour transmitting the frame 0x32, 0x00, 0x15,
0x00, 0x47 (whose checksum is valid), the transaction returns no error, and
the reading has humidity 50.0 and temperature 21.0. -/
theorem C9_scenario_a :
    (read_dht11_body (mkEnv [0x32, 0x00, 0x15, 0x00, 0x47]) initPin).1 =
      .ok { humidity_integral := 0x32, humidity_decimal := 0x00,
            temperature_integral := 0x15, temperature_decimal := 0x00 } ∧
    humidity { humidity_integral := 0x32, humidity_decimal := 0x00,
               temperature_integral := 0x15, temperature_decimal := 0x00 } = 50 ∧
    temperature { humidity_integral := 0x32, humidity_decimal := 0x00,
                  temperature_integral := 0x15, temperature_decimal := 0x00 } = 21 := by
  refine ⟨by decide, by norm_num [humidity], by norm_num [temperature]⟩

/-! ## Claim C8: minimum interval of the periodic task -/

/-- C8: in every iteration of the periodic task loop the start of the next
`read` is at least 2 seconds (2 000 000 us) after the start of the previous
one, whatever the line behaviour of each iteration (success or failure),
because the task always suspends for 2 s after the call returns. -/
theorem C8_min_interval (envs : Nat → Nat → Bool) (p0 : PinState) (n : Nat) :
    dht11_task_start envs p0 n + 2000000 ≤ dht11_task_start envs p0 (n + 1) := by
  simp only [dht11_task_start]
  omega

/-! ## Claim C10: reading before initialization panics -/

/-- C10: calling `read_dht11` while the global pin cell is still empty hits
the `unwrap()` of the empty cell and panics (the `none` outcome) instead of
returning any `Dht11Error`; once `dht11_init` has stored a pin, the
transaction body runs. -/
theorem C10_read_before_init_panics (env : Nat → Bool) :
    read_dht11 none env = none ∧
    (∀ r, read_dht11 none env ≠ some r) ∧
    ∀ cell, read_dht11 (dht11_init cell) env = some (read_dht11_body env initPin) :=
  ⟨rfl, fun _ h => Option.noConfusion h, fun _ => rfl⟩
